import Mathlib

/-!
# Forklift Control Simulator — verification of the core controller

Shallow embedding of the scan-based lift controller from
`Forklift Control System/main.cpp`: the `FaultManager` priority latch,
the `LiftPlant` bounded-acceleration integrator, and
`LiftController::update` (fault latching, gated reset, state transition,
output/actuation). C++ `double` values are modelled as `ℚ`; all
arithmetic in the source is exact rational arithmetic (sums, products,
clamps), so the embedding is faithful up to floating-point rounding.
-/

namespace Forklift

/-- Per-scan input snapshot (`struct Inputs`). -/
structure Inputs where
  cmdUp : Bool := false
  cmdDown : Bool := false
  cmdHold : Bool := false
  estop : Bool := false
  resetFault : Bool := false
  topLimit : Bool := false
  bottomLimit : Bool := true
  loadKg : ℚ := 0
  deriving DecidableEq, Repr

/-- Per-scan output command (`struct Outputs`). -/
structure Outputs where
  motorEnable : Bool := false
  motorDir : Int := 0
  brakeEngaged : Bool := true
  faultLamp : Bool := false
  deriving DecidableEq, Repr

/-- `enum class FaultCode` — ordered fault variants. -/
inductive FaultCode where
  | None
  | LimitViolation
  | Overload
  | EmergencyStop
  deriving DecidableEq, Repr

/-- `faultPriority`: the numeric value of the enum, higher = higher priority. -/
def faultPriority : FaultCode → Int
  | .None => 0
  | .LimitViolation => 10
  | .Overload => 20
  | .EmergencyStop => 30

/-- `struct FaultManager` — a single latched fault code. -/
structure FaultManager where
  latched : FaultCode := .None
  deriving DecidableEq, Repr

/-- `FaultManager::clear` — unconditionally drops the latched fault. -/
def FaultManager.clear (_fm : FaultManager) : FaultManager :=
  { latched := .None }

/-- `FaultManager::latch` — latches `f` only if it has strictly higher priority. -/
def FaultManager.latch (fm : FaultManager) (f : FaultCode) : FaultManager :=
  if faultPriority f > faultPriority fm.latched then { latched := f } else fm

/-- `FaultManager::hasFault`. -/
def FaultManager.hasFault (fm : FaultManager) : Bool :=
  decide (fm.latched ≠ FaultCode.None)

/-- `enum class LiftState`. -/
inductive LiftState where
  | Holding
  | Lifting
  | Lowering
  | Faulted
  deriving DecidableEq, Repr

/-- `std::clamp(v, lo, hi)` — exactly the C++ comparison order. -/
def clampQ (v lo hi : ℚ) : ℚ :=
  if v < lo then lo else if hi < v then hi else v

/-- `struct LiftPlant` — position/velocity plus commanded target velocity. -/
structure LiftPlant where
  position : ℚ := 0
  velocity : ℚ := 0
  targetVel : ℚ := 0
  deriving DecidableEq, Repr

/-- `LiftPlant::step(dt)` — accelerate toward `targetVel` bounded by
`accel = 3.0`, integrate position, clamp to `[0,1]`, zero velocity when
pushed into a travel end. -/
def LiftPlant.step (p : LiftPlant) (dt : ℚ) : LiftPlant :=
  let accel : ℚ := 3
  let dv := p.targetVel - p.velocity
  let maxDv := accel * dt
  let dv2 := clampQ dv (-maxDv) maxDv
  let v1 := p.velocity + dv2
  let pos1 := p.position + v1 * dt
  let pos2 := clampQ pos1 0 1
  let v2 := if pos2 ≤ 0 ∧ v1 < 0 then 0 else v1
  let v3 := if pos2 ≥ 1 ∧ v2 > 0 then 0 else v2
  { position := pos2, velocity := v3, targetVel := p.targetVel }

/-- Controller tunable `maxLoadKg = 1200.0`. -/
def maxLoadKg : ℚ := 1200

/-- Controller tunable `liftSpeed = 0.35`. -/
def liftSpeed : ℚ := 35 / 100

/-- Controller tunable `lowerSpeed = 0.30`. -/
def lowerSpeed : ℚ := 30 / 100

/-- Controller tunable `safeStopSpeedEps = 0.01`. -/
def safeStopSpeedEps : ℚ := 1 / 100

/-- `struct LiftController` — mutable controller state (the tunables above are
`const` members and are modelled as the constants above). -/
structure LiftController where
  state : LiftState := .Holding
  faults : FaultManager := {}
  lastTopLimit : Bool := false
  lastBottomLimit : Bool := true
  deriving DecidableEq, Repr

/-- One conditional latch statement of Step 1: `if (cond) faults.latch(code);`. -/
def latchWhen (c : Prop) [Decidable c] (code : FaultCode) (fm : FaultManager) : FaultManager :=
  if c then fm.latch code else fm

/-- The first two latch statements of Step 1: e-stop, then overload. -/
def step1Base (fm : FaultManager) (i : Inputs) : FaultManager :=
  latchWhen (i.loadKg > maxLoadKg) .Overload
    (latchWhen (i.estop = true) .EmergencyStop fm)

/-- The limit-related latch statements of Step 1: sensor contradiction,
else moving-into-a-limit (using the previous scan's state) and
commanding-into-a-limit. -/
def limitFaults (st : LiftState) (fm : FaultManager) (i : Inputs) : FaultManager :=
  if i.topLimit && i.bottomLimit then
    fm.latch .LimitViolation
  else
    latchWhen (i.cmdDown = true ∧ i.bottomLimit = true) .LimitViolation
      (latchWhen (i.cmdUp = true ∧ i.topLimit = true) .LimitViolation
        (latchWhen (st = LiftState.Lowering ∧ i.bottomLimit = true) .LimitViolation
          (latchWhen (st = LiftState.Lifting ∧ i.topLimit = true) .LimitViolation fm)))

/-- Step 1 of `LiftController::update`: priority-based fault latching
(e-stop, overload, limit consistency and commanding into a limit), using
the state carried over from the previous scan. -/
def step1Faults (st : LiftState) (fm : FaultManager) (i : Inputs) : FaultManager :=
  limitFaults st (step1Base fm i) i

/-- Step 2 gate of `LiftController::update`: reset allowed only with the
pulse asserted, e-stop released and the lift essentially stationary. -/
def resetGate (i : Inputs) (vel : ℚ) : Bool :=
  i.resetFault && !i.estop && decide (|vel| < safeStopSpeedEps)

/-- Step 3 of `LiftController::update`, the non-faulted branch: recompute
the commanded state from operator commands and limit switches. -/
def cmdState (i : Inputs) : LiftState :=
  if i.cmdUp && !i.cmdDown && !i.topLimit then .Lifting
  else if i.cmdDown && !i.cmdUp && !i.bottomLimit then .Lowering
  else .Holding

/-- Step 4 of `LiftController::update`: the output switch. Returns the
commanded `plant.targetVel` together with the `Outputs` snapshot. -/
def stepOutputs (st : LiftState) (i : Inputs) : ℚ × Outputs :=
  match st with
  | .Faulted =>
      (0, { motorEnable := false, motorDir := 0, brakeEngaged := true, faultLamp := true })
  | .Holding =>
      (0, { motorEnable := false, motorDir := 0, brakeEngaged := true, faultLamp := false })
  | .Lifting =>
      if i.topLimit then
        (0, { motorEnable := false, motorDir := 0, brakeEngaged := true, faultLamp := false })
      else
        (liftSpeed, { motorEnable := true, motorDir := 1, brakeEngaged := false, faultLamp := false })
  | .Lowering =>
      if i.bottomLimit then
        (0, { motorEnable := false, motorDir := 0, brakeEngaged := true, faultLamp := false })
      else
        (-lowerSpeed, { motorEnable := true, motorDir := -1, brakeEngaged := false, faultLamp := false })

/-- `LiftController::update(dt, in, plant)` — one controller scan. Returns
the updated controller, the plant with its newly commanded `targetVel`
(the only plant field `update` writes), and the `Outputs`. `dt` is unused
by the source (`(void)dt`) but kept for signature fidelity. -/
def LiftController.update (c : LiftController) (dt : ℚ) (i : Inputs) (plant : LiftPlant) :
    LiftController × LiftPlant × Outputs :=
  let f3 := step1Faults c.state c.faults i
  let f4 := if resetGate i plant.velocity then f3.clear else f3
  let st := if f4.hasFault then LiftState.Faulted else cmdState i
  let _ := dt
  ({ state := st, faults := f4, lastTopLimit := i.topLimit, lastBottomLimit := i.bottomLimit },
   { plant with targetVel := (stepOutputs st i).1 },
   (stepOutputs st i).2)

/-! ## The scan-loop driver (`main`) as the calling contract

`main` derives the limit switches from plant position, runs one controller
scan, enforces the brake on `targetVel`, and integrates the plant with
`dt = 0.02`. Operator command ingestion and status printing are console
I/O; the scenario below feeds the per-scan `cmdUp` value directly. -/

/-- The fixed scan period `dt = 0.02` of `main`. -/
def scanDt : ℚ := 2 / 100

/-- One scan's `Inputs` as `main` builds them: `bottomLimit = (position <= 0.0001)`,
`topLimit = (position >= 0.9999)`, with estop/reset released, no load, and
the per-scan operator up command supplied by the scenario. -/
def deriveInputs (cmdUp : Bool) (p : LiftPlant) : Inputs :=
  { cmdUp := cmdUp, cmdDown := false, cmdHold := false,
    estop := false, resetFault := false,
    topLimit := decide (p.position ≥ 9999 / 10000),
    bottomLimit := decide (p.position ≤ 1 / 10000),
    loadKg := 0 }

/-- One iteration of `main`'s loop: derive inputs, controller scan, brake
enforcement (`if (out.brakeEngaged) plant.targetVel = 0`), plant step. -/
def scanStep (cmdUp : Bool) (s : LiftController × LiftPlant) : LiftController × LiftPlant :=
  let i := deriveInputs cmdUp s.2
  let r := s.1.update scanDt i s.2
  let p := if r.2.2.brakeEngaged then { r.2.1 with targetVel := 0 } else r.2.1
  (r.1, p.step scanDt)

/-- Run the scan loop over a list of per-scan `cmdUp` values. -/
def runScans (cmds : List Bool) (s : LiftController × LiftPlant) :
    LiftController × LiftPlant :=
  cmds.foldl (fun s c => scanStep c s) s

/-- The system state after each scan of `runScans` (one entry per scan). -/
def runTrace (cmds : List Bool) (s : LiftController × LiftPlant) :
    List (LiftController × LiftPlant) :=
  match cmds with
  | [] => []
  | c :: rest =>
      let s2 := scanStep c s
      s2 :: runTrace rest s2

/-- The default-constructed system of `main`: plant at the bottom at rest,
controller `Holding` with no fault. -/
def initialSystem : LiftController × LiftPlant := ({}, {})

/-- Scenario A command feed: assert `cmdUp` for 143 scans (position reaches
0.984, still below the top-limit threshold), then release it and let the
lift coast to the top for 10 more scans. -/
def scenarioCmds : List Bool := List.replicate 143 true ++ List.replicate 10 false

/-! ## Concrete fixtures used by witnesses -/

/-- A controller with an `EmergencyStop` fault already latched. -/
def cFaulted : LiftController := { faults := { latched := FaultCode.EmergencyStop } }

/-- An input snapshot commanding up with both limit switches clear. -/
def iUp : Inputs := { cmdUp := true, topLimit := false, bottomLimit := false }

/-- An input snapshot commanding up into an asserted top limit switch. -/
def iUpAtTop : Inputs := { cmdUp := true, topLimit := true, bottomLimit := false }

/-- An overweight input snapshot (one kilogram above `maxLoadKg`). -/
def iOverload : Inputs := { topLimit := false, bottomLimit := false, loadKg := 1201 }

/-! ## FaultManager lemmas -/

theorem faultPriority_nonneg (f : FaultCode) : 0 ≤ faultPriority f := by
  cases f <;> decide

theorem faultPriority_pos_iff (f : FaultCode) :
    0 < faultPriority f ↔ f ≠ FaultCode.None := by
  cases f <;> decide

theorem hasFault_iff (fm : FaultManager) :
    fm.hasFault = true ↔ fm.latched ≠ FaultCode.None := by
  simp [FaultManager.hasFault]

theorem faultPriority_le_latch (fm : FaultManager) (code : FaultCode) :
    faultPriority fm.latched ≤ faultPriority (fm.latch code).latched := by
  unfold FaultManager.latch
  split_ifs with h
  · exact le_of_lt h
  · exact le_rfl

theorem code_le_latch (fm : FaultManager) (code : FaultCode) :
    faultPriority code ≤ faultPriority (fm.latch code).latched := by
  unfold FaultManager.latch
  split_ifs with h
  · exact le_rfl
  · omega

theorem latch_eq_none_iff (fm : FaultManager) (code : FaultCode) :
    (fm.latch code).latched = FaultCode.None ↔
      fm.latched = FaultCode.None ∧ code = FaultCode.None := by
  obtain ⟨l⟩ := fm
  cases l <;> cases code <;> decide

theorem latchWhen_mono (c : Prop) [Decidable c] (code : FaultCode) (fm : FaultManager) :
    faultPriority fm.latched ≤ faultPriority (latchWhen c code fm).latched := by
  unfold latchWhen
  split_ifs with h
  · exact faultPriority_le_latch fm code
  · exact le_rfl

theorem latchWhen_guard (c : Prop) [Decidable c] (code : FaultCode) (fm : FaultManager)
    (h : c) :
    faultPriority code ≤ faultPriority (latchWhen c code fm).latched := by
  unfold latchWhen
  rw [if_pos h]
  exact code_le_latch fm code

theorem latchWhen_eq_none_iff (c : Prop) [Decidable c] (code : FaultCode) (fm : FaultManager) :
    (latchWhen c code fm).latched = FaultCode.None ↔
      fm.latched = FaultCode.None ∧ (¬c ∨ code = FaultCode.None) := by
  unfold latchWhen
  split_ifs with h
  · rw [latch_eq_none_iff]
    tauto
  · tauto

theorem step1Base_mono (fm : FaultManager) (i : Inputs) :
    faultPriority fm.latched ≤ faultPriority (step1Base fm i).latched := by
  unfold step1Base
  exact le_trans (latchWhen_mono _ _ _) (latchWhen_mono _ _ _)

theorem limitFaults_mono (st : LiftState) (fm : FaultManager) (i : Inputs) :
    faultPriority fm.latched ≤ faultPriority (limitFaults st fm i).latched := by
  unfold limitFaults
  split_ifs with htb
  · exact faultPriority_le_latch fm _
  · exact le_trans (le_trans (le_trans (latchWhen_mono _ _ _) (latchWhen_mono _ _ _))
      (latchWhen_mono _ _ _)) (latchWhen_mono _ _ _)

theorem step1Faults_mono (st : LiftState) (fm : FaultManager) (i : Inputs) :
    faultPriority fm.latched ≤ faultPriority (step1Faults st fm i).latched := by
  unfold step1Faults
  exact le_trans (step1Base_mono fm i) (limitFaults_mono st _ i)

theorem step1Base_eq_none_iff (fm : FaultManager) (i : Inputs) :
    (step1Base fm i).latched = FaultCode.None ↔
      fm.latched = FaultCode.None ∧ i.estop = false ∧ ¬ i.loadKg > maxLoadKg := by
  unfold step1Base
  rw [latchWhen_eq_none_iff, latchWhen_eq_none_iff]
  constructor
  · rintro ⟨⟨h1, h2⟩, h3⟩
    refine ⟨h1, ?_, ?_⟩
    · rcases h2 with h2 | h2
      · simpa using h2
      · exact absurd h2 (by decide)
    · rcases h3 with h3 | h3
      · exact h3
      · exact absurd h3 (by decide)
  · rintro ⟨h1, h2, h3⟩
    exact ⟨⟨h1, Or.inl (by simp [h2])⟩, Or.inl h3⟩

theorem limitFaults_eq_none_iff (st : LiftState) (fm : FaultManager) (i : Inputs) :
    (limitFaults st fm i).latched = FaultCode.None ↔
      fm.latched = FaultCode.None
      ∧ ¬(i.topLimit = true ∧ i.bottomLimit = true)
      ∧ ¬(st = LiftState.Lifting ∧ i.topLimit = true)
      ∧ ¬(st = LiftState.Lowering ∧ i.bottomLimit = true)
      ∧ ¬(i.cmdUp = true ∧ i.topLimit = true)
      ∧ ¬(i.cmdDown = true ∧ i.bottomLimit = true) := by
  unfold limitFaults
  split_ifs with htb
  · rw [latch_eq_none_iff]
    simp only [Bool.and_eq_true] at htb
    constructor
    · rintro ⟨-, h⟩
      exact absurd h (by decide)
    · rintro ⟨-, h, -⟩
      exact absurd htb h
  · rw [latchWhen_eq_none_iff, latchWhen_eq_none_iff, latchWhen_eq_none_iff,
      latchWhen_eq_none_iff]
    simp only [Bool.and_eq_true] at htb
    have hLV : ¬(FaultCode.LimitViolation = FaultCode.None) := by decide
    tauto

theorem step1Faults_eq_none_iff (st : LiftState) (fm : FaultManager) (i : Inputs) :
    (step1Faults st fm i).latched = FaultCode.None ↔
      fm.latched = FaultCode.None ∧ i.estop = false ∧ ¬ i.loadKg > maxLoadKg
      ∧ ¬(i.topLimit = true ∧ i.bottomLimit = true)
      ∧ ¬(st = LiftState.Lifting ∧ i.topLimit = true)
      ∧ ¬(st = LiftState.Lowering ∧ i.bottomLimit = true)
      ∧ ¬(i.cmdUp = true ∧ i.topLimit = true)
      ∧ ¬(i.cmdDown = true ∧ i.bottomLimit = true) := by
  unfold step1Faults
  rw [limitFaults_eq_none_iff, step1Base_eq_none_iff]
  tauto

/-- C3: for any sequence of `latch` calls the latched priority never
decreases; `latch(code)` replaces the latched code exactly when its
priority is strictly higher; and `latch(None)` is a no-op. -/
theorem latch_priority_monotone :
    (∀ (fm : FaultManager) (code : FaultCode),
        fm.latch code =
          if faultPriority code > faultPriority fm.latched then { latched := code } else fm)
    ∧ (∀ (fm : FaultManager) (codes : List FaultCode),
        faultPriority fm.latched ≤
          faultPriority ((codes.foldl FaultManager.latch fm).latched))
    ∧ (∀ fm : FaultManager, fm.latch FaultCode.None = fm) := by
  refine ⟨fun fm code => rfl, ?_, ?_⟩
  · intro fm codes
    induction codes generalizing fm with
    | nil => exact le_refl _
    | cons c cs ih =>
        exact le_trans (faultPriority_le_latch fm c) (ih (fm.latch c))
  · intro fm
    unfold FaultManager.latch
    rw [if_neg]
    have h1 := faultPriority_nonneg fm.latched
    have h2 : faultPriority FaultCode.None = 0 := rfl
    omega

/-! ## Output-layer lemmas -/

theorem stepOutputs_exclusive (st : LiftState) (i : Inputs) :
    (((stepOutputs st i).2.motorEnable = true) ↔ ((stepOutputs st i).2.motorDir ≠ 0))
    ∧ (((stepOutputs st i).2.motorEnable = true) ↔ ((stepOutputs st i).2.brakeEngaged = false)) := by
  cases st <;> simp only [stepOutputs] <;> (try split_ifs) <;> decide

/-- C1: every `Outputs` returned by `update` satisfies the exclusivity
invariant `motorEnable = true ↔ motorDir ≠ 0 ↔ brakeEngaged = false`. -/
theorem update_output_exclusive (c : LiftController) (dt : ℚ) (i : Inputs) (p : LiftPlant) :
    (((c.update dt i p).2.2.motorEnable = true) ↔ ((c.update dt i p).2.2.motorDir ≠ 0))
    ∧ (((c.update dt i p).2.2.motorEnable = true) ↔ ((c.update dt i p).2.2.brakeEngaged = false)) :=
  stepOutputs_exclusive _ i

/-! ## Shape of one `update` call, by definitional unfolding -/

theorem update_faults_eq (c : LiftController) (dt : ℚ) (i : Inputs) (p : LiftPlant) :
    (c.update dt i p).1.faults =
      (if resetGate i p.velocity then (step1Faults c.state c.faults i).clear
       else step1Faults c.state c.faults i) := rfl

theorem update_state_eq (c : LiftController) (dt : ℚ) (i : Inputs) (p : LiftPlant) :
    (c.update dt i p).1.state =
      (if ((c.update dt i p).1.faults).hasFault then LiftState.Faulted
       else cmdState i) := rfl

theorem update_out_eq (c : LiftController) (dt : ℚ) (i : Inputs) (p : LiftPlant) :
    (c.update dt i p).2.2 = (stepOutputs ((c.update dt i p).1.state) i).2 := rfl

theorem update_targetVel_eq (c : LiftController) (dt : ℚ) (i : Inputs) (p : LiftPlant) :
    (c.update dt i p).2.1.targetVel = (stepOutputs ((c.update dt i p).1.state) i).1 := rfl

theorem update_velocity_eq (c : LiftController) (dt : ℚ) (i : Inputs) (p : LiftPlant) :
    (c.update dt i p).2.1.velocity = p.velocity := rfl

theorem update_position_eq (c : LiftController) (dt : ℚ) (i : Inputs) (p : LiftPlant) :
    (c.update dt i p).2.1.position = p.position := rfl

theorem cmdState_lifting (i : Inputs) (h : cmdState i = LiftState.Lifting) :
    i.topLimit = false := by
  unfold cmdState at h
  split_ifs at h with h1 h2
  simp_all

theorem cmdState_lowering (i : Inputs) (h : cmdState i = LiftState.Lowering) :
    i.bottomLimit = false := by
  unfold cmdState at h
  split_ifs at h with h1 h2
  simp_all

theorem stepOutputs_motor_away (st : LiftState) (i : Inputs) :
    (stepOutputs st i).2.motorEnable = true →
      (((stepOutputs st i).2.motorDir = 1 → i.topLimit = false)
       ∧ ((stepOutputs st i).2.motorDir = -1 → i.bottomLimit = false)) := by
  cases st <;> simp only [stepOutputs] <;> (try split_ifs) <;> simp_all

/-- C10: whenever `update` leaves `state = Lifting` the top limit input was
false (resp. `Lowering` / bottom limit), so the limit-true sub-branches of
Step 4 are unreachable in the same call, and an enabled motor always drives
away from any asserted limit switch. -/
theorem update_motor_away_from_limit (c : LiftController) (dt : ℚ) (i : Inputs) (p : LiftPlant) :
    (((c.update dt i p).1.state = LiftState.Lifting) → i.topLimit = false)
    ∧ (((c.update dt i p).1.state = LiftState.Lowering) → i.bottomLimit = false)
    ∧ ((c.update dt i p).2.2.motorEnable = true →
        (((c.update dt i p).2.2.motorDir = 1 → i.topLimit = false)
         ∧ ((c.update dt i p).2.2.motorDir = -1 → i.bottomLimit = false))) := by
  refine ⟨?_, ?_, stepOutputs_motor_away _ i⟩ <;>
    · intro h
      rw [update_state_eq] at h
      split_ifs at h with hf
      all_goals first
        | exact cmdState_lifting i h
        | exact cmdState_lowering i h

/-- Witness for C10 at a concrete lifting scan. -/
theorem update_motor_away_from_limit_witness : iUp.topLimit = false :=
  (update_motor_away_from_limit {} scanDt iUp {}).1 (by decide)

/-! ## Reset gating and faulted-scan behaviour -/

theorem resetGate_eq_true_iff (i : Inputs) (v : ℚ) :
    resetGate i v = true ↔
      i.resetFault = true ∧ i.estop = false ∧ |v| < safeStopSpeedEps := by
  simp [resetGate, Bool.and_eq_true, decide_eq_true_iff, and_assoc]

/-- C2: with a fault latched before the call, `update` drops it to `None`
only when the reset pulse, released e-stop and near-zero velocity all hold
in that same call; otherwise the latched fault is unchanged or raised. -/
theorem fault_cleared_only_by_gated_reset (c : LiftController) (dt : ℚ) (i : Inputs)
    (p : LiftPlant) (h : c.faults.latched ≠ FaultCode.None) :
    ((c.update dt i p).1.faults.latched = FaultCode.None →
      i.resetFault = true ∧ i.estop = false ∧ |p.velocity| < safeStopSpeedEps)
    ∧ (resetGate i p.velocity = false →
        faultPriority c.faults.latched ≤ faultPriority (c.update dt i p).1.faults.latched
        ∧ (c.update dt i p).1.faults.latched ≠ FaultCode.None) := by
  have hmono := step1Faults_mono c.state c.faults i
  have hpos : 0 < faultPriority c.faults.latched := (faultPriority_pos_iff _).mpr h
  have h0 : faultPriority FaultCode.None = 0 := rfl
  constructor
  · intro hN
    by_cases hg : resetGate i p.velocity = true
    · exact (resetGate_eq_true_iff i p.velocity).mp hg
    · rw [update_faults_eq, if_neg hg] at hN
      rw [hN] at hmono
      omega
  · intro hg
    have hg2 : ¬(resetGate i p.velocity = true) := by simp [hg]
    rw [update_faults_eq, if_neg hg2]
    refine ⟨hmono, ?_⟩
    rw [← faultPriority_pos_iff]
    omega

/-- Witness for C2 on a controller with a latched `EmergencyStop` and no
reset pulse. -/
theorem fault_cleared_only_by_gated_reset_witness :
    ((cFaulted.update scanDt {} {}).1.faults.latched = FaultCode.None →
      ({} : Inputs).resetFault = true ∧ ({} : Inputs).estop = false
      ∧ |({} : LiftPlant).velocity| < safeStopSpeedEps)
    ∧ (resetGate {} ({} : LiftPlant).velocity = false →
        faultPriority cFaulted.faults.latched ≤
          faultPriority (cFaulted.update scanDt {} {}).1.faults.latched
        ∧ (cFaulted.update scanDt {} {}).1.faults.latched ≠ FaultCode.None) :=
  fault_cleared_only_by_gated_reset cFaulted scanDt {} {} (by decide)

/-- C4: whenever Step 1 leaves a latched fault and the reset gate does not
fire, the scan ends `Faulted` with motor off, brake on, lamp lit and a zero
commanded target velocity, independently of the command inputs. -/
theorem fault_forces_safe_outputs (c : LiftController) (dt : ℚ) (i : Inputs) (p : LiftPlant)
    (hf : (step1Faults c.state c.faults i).hasFault = true)
    (hg : resetGate i p.velocity = false) :
    (c.update dt i p).1.state = LiftState.Faulted
    ∧ (c.update dt i p).2.2 =
        { motorEnable := false, motorDir := 0, brakeEngaged := true, faultLamp := true }
    ∧ (c.update dt i p).2.1.targetVel = 0 := by
  have hg2 : ¬(resetGate i p.velocity = true) := by simp [hg]
  have hst : (c.update dt i p).1.state = LiftState.Faulted := by
    rw [update_state_eq, update_faults_eq, if_neg hg2, if_pos hf]
  refine ⟨hst, ?_, ?_⟩
  · rw [update_out_eq, hst]
    rfl
  · rw [update_targetVel_eq, hst]
    rfl

/-- Witness for C4: a latched e-stop fault with no reset pulse forces the
safe outputs. -/
theorem fault_forces_safe_outputs_witness :
    (cFaulted.update scanDt {} {}).1.state = LiftState.Faulted
    ∧ (cFaulted.update scanDt {} {}).2.2 =
        { motorEnable := false, motorDir := 0, brakeEngaged := true, faultLamp := true }
    ∧ (cFaulted.update scanDt {} {}).2.1.targetVel = 0 :=
  fault_forces_safe_outputs cFaulted scanDt {} {} (by decide) (by decide)

/-! ## Limit interlock (C5) -/

theorem step1Faults_limit_guard (st : LiftState) (fm : FaultManager) (i : Inputs)
    (hu : i.cmdUp = true) (ht : i.topLimit = true) (hb : i.bottomLimit = false) :
    faultPriority FaultCode.LimitViolation ≤ faultPriority (step1Faults st fm i).latched := by
  unfold step1Faults limitFaults
  rw [if_neg (by simp [ht, hb])]
  exact le_trans (latchWhen_guard _ _ _ ⟨hu, ht⟩) (latchWhen_mono _ _ _)

/-- C5: commanding up into an asserted top limit (with the bottom limit
clear) latches a fault of at least `LimitViolation` priority in that scan
and, absent a gated reset, the scan already ends `Faulted`. -/
theorem cmdUp_into_top_latches (c : LiftController) (dt : ℚ) (i : Inputs) (p : LiftPlant)
    (hu : i.cmdUp = true) (ht : i.topLimit = true) (hb : i.bottomLimit = false)
    (hg : resetGate i p.velocity = false) :
    faultPriority FaultCode.LimitViolation ≤ faultPriority (c.update dt i p).1.faults.latched
    ∧ (c.update dt i p).1.state = LiftState.Faulted := by
  have hg2 : ¬(resetGate i p.velocity = true) := by simp [hg]
  have hp := step1Faults_limit_guard c.state c.faults i hu ht hb
  have h10 : faultPriority FaultCode.LimitViolation = 10 := rfl
  have hfa : (c.update dt i p).1.faults = step1Faults c.state c.faults i := by
    rw [update_faults_eq, if_neg hg2]
  have hhf : (step1Faults c.state c.faults i).hasFault = true := by
    rw [hasFault_iff, ← faultPriority_pos_iff]
    omega
  constructor
  · rw [hfa]
    exact hp
  · rw [update_state_eq, hfa, if_pos hhf]

/-- Witness for C5 at a fresh controller commanded up against the top limit. -/
theorem cmdUp_into_top_latches_witness :
    faultPriority FaultCode.LimitViolation ≤
      faultPriority (LiftController.update {} scanDt iUpAtTop {}).1.faults.latched
    ∧ (LiftController.update {} scanDt iUpAtTop {}).1.state = LiftState.Faulted :=
  cmdUp_into_top_latches {} scanDt iUpAtTop {} (by decide) (by decide) (by decide) (by decide)

/-! ## Overload boundary (C8) -/

theorem latchWhen_latched_cases (c : Prop) [Decidable c] (code : FaultCode) (fm : FaultManager) :
    (latchWhen c code fm).latched = fm.latched ∨ (latchWhen c code fm).latched = code := by
  unfold latchWhen
  by_cases h : c
  · rw [if_pos h]
    unfold FaultManager.latch
    split_ifs <;> simp
  · rw [if_neg h]
    left
    rfl

theorem limitFaults_latched_cases (st : LiftState) (fm : FaultManager) (i : Inputs) :
    (limitFaults st fm i).latched = fm.latched
    ∨ (limitFaults st fm i).latched = FaultCode.LimitViolation := by
  unfold limitFaults
  split_ifs with htb
  · unfold FaultManager.latch
    split_ifs <;> simp
  · rcases latchWhen_latched_cases (i.cmdDown = true ∧ i.bottomLimit = true)
      FaultCode.LimitViolation
      (latchWhen (i.cmdUp = true ∧ i.topLimit = true) FaultCode.LimitViolation
        (latchWhen (st = LiftState.Lowering ∧ i.bottomLimit = true) FaultCode.LimitViolation
          (latchWhen (st = LiftState.Lifting ∧ i.topLimit = true) FaultCode.LimitViolation fm)))
      with h1 | h1
    · rw [h1]
      rcases latchWhen_latched_cases (i.cmdUp = true ∧ i.topLimit = true)
        FaultCode.LimitViolation
        (latchWhen (st = LiftState.Lowering ∧ i.bottomLimit = true) FaultCode.LimitViolation
          (latchWhen (st = LiftState.Lifting ∧ i.topLimit = true) FaultCode.LimitViolation fm))
        with h2 | h2
      · rw [h2]
        rcases latchWhen_latched_cases (st = LiftState.Lowering ∧ i.bottomLimit = true)
          FaultCode.LimitViolation
          (latchWhen (st = LiftState.Lifting ∧ i.topLimit = true) FaultCode.LimitViolation fm)
          with h3 | h3
        · rw [h3]
          rcases latchWhen_latched_cases (st = LiftState.Lifting ∧ i.topLimit = true)
            FaultCode.LimitViolation fm with h4 | h4
          · rw [h4]
            left
            rfl
          · right
            exact h4
        · right
          exact h3
      · right
        exact h2
    · right
      exact h1

theorem limitFaults_latched_of_overload (st : LiftState) (fm : FaultManager) (i : Inputs)
    (h : fm.latched = FaultCode.Overload) :
    (limitFaults st fm i).latched = FaultCode.Overload := by
  rcases limitFaults_latched_cases st fm i with hc | hc
  · rw [hc, h]
  · have hm := limitFaults_mono st fm i
    rw [h, hc] at hm
    exact absurd hm (by decide)

theorem step1Base_no_estop (fm : FaultManager) (i : Inputs) (hE : i.estop = false) :
    step1Base fm i = latchWhen (i.loadKg > maxLoadKg) FaultCode.Overload fm := by
  have hskip : latchWhen (i.estop = true) FaultCode.EmergencyStop fm = fm := by
    unfold latchWhen
    rw [if_neg (by simp [hE])]
  unfold step1Base
  rw [hskip]

theorem step1Faults_overload_iff (st : LiftState) (fm : FaultManager) (i : Inputs)
    (hE : i.estop = false) (hP : faultPriority fm.latched < faultPriority FaultCode.Overload) :
    ((step1Faults st fm i).latched = FaultCode.Overload ↔ i.loadKg > maxLoadKg) := by
  unfold step1Faults
  rw [step1Base_no_estop fm i hE]
  by_cases hL : i.loadKg > maxLoadKg
  · rw [show latchWhen (i.loadKg > maxLoadKg) FaultCode.Overload fm = fm.latch FaultCode.Overload
      from if_pos hL]
    have hlatch : (fm.latch FaultCode.Overload).latched = FaultCode.Overload := by
      unfold FaultManager.latch
      rw [if_pos hP]
    rw [limitFaults_latched_of_overload st _ i hlatch]
    simp [hL]
  · rw [show latchWhen (i.loadKg > maxLoadKg) FaultCode.Overload fm = fm from if_neg hL]
    constructor
    · intro hOv
      rcases limitFaults_latched_cases st fm i with hc | hc
      · rw [hc] at hOv
        rw [hOv] at hP
        exact absurd hP (by decide)
      · rw [hc] at hOv
        exact absurd hOv (by decide)
    · intro hLoad
      exact absurd hLoad hL

/-- C8: with no e-stop, no already-latched fault of Overload-or-higher
priority and no reset firing, `update` latches `Overload` exactly when
`loadKg > maxLoadKg` — the boundary is strict. -/
theorem overload_latched_iff (c : LiftController) (dt : ℚ) (i : Inputs) (p : LiftPlant)
    (hE : i.estop = false)
    (hP : faultPriority c.faults.latched < faultPriority FaultCode.Overload)
    (hg : resetGate i p.velocity = false) :
    ((c.update dt i p).1.faults.latched = FaultCode.Overload ↔ i.loadKg > maxLoadKg) := by
  have hg2 : ¬(resetGate i p.velocity = true) := by simp [hg]
  rw [update_faults_eq, if_neg hg2]
  exact step1Faults_overload_iff c.state c.faults i hE hP

/-- Witness for C8: one kilogram above the limit latches Overload on a
fresh controller; at the limit exactly, nothing is latched. -/
theorem overload_latched_iff_witness :
    (LiftController.update {} scanDt iOverload {}).1.faults.latched = FaultCode.Overload
    ∧ (LiftController.update {} scanDt { iOverload with loadKg := 1200 } {}).1.faults.latched
        ≠ FaultCode.Overload :=
  ⟨(overload_latched_iff {} scanDt iOverload {} (by decide) (by decide) (by decide)).mpr
      (by norm_num [iOverload, maxLoadKg]),
   fun h =>
     absurd ((overload_latched_iff {} scanDt { iOverload with loadKg := 1200 } {}
        (by decide) (by decide) (by decide)).mp h)
       (by norm_num [iOverload, maxLoadKg])⟩

/-! ## Plant integration (C7) -/

/-- The intermediate velocity of `LiftPlant::step` after the
bounded-acceleration update and before the boundary zeroing. -/
def velAfterAccel (p : LiftPlant) (dt : ℚ) : ℚ :=
  p.velocity + clampQ (p.targetVel - p.velocity) (-(3 * dt)) (3 * dt)

/-- The plant step exactly as the spec words it (§4.2): `dv = clamp(targetVel
- velocity, -accel*dt, accel*dt)` with `accel = 3.0`, `velocity += dv`;
`position += velocity*dt` clamped to `[0,1]`; zero the velocity when the
position sits at a boundary while still moving into it. Stated separately
from `LiftPlant.step` so their agreement is a theorem. -/
def stepSpecModel (p : LiftPlant) (dt : ℚ) : LiftPlant :=
  let v := velAfterAccel p dt
  let pos := clampQ (p.position + v * dt) 0 1
  let vLow := if pos ≤ 0 ∧ v < 0 then 0 else v
  let vHigh := if pos ≥ 1 ∧ vLow > 0 then 0 else vLow
  { position := pos, velocity := vHigh, targetVel := p.targetVel }

theorem le_clampQ (v lo hi : ℚ) (h : lo ≤ hi) : lo ≤ clampQ v lo hi := by
  unfold clampQ
  split_ifs <;> linarith

theorem clampQ_le (v lo hi : ℚ) (h : lo ≤ hi) : clampQ v lo hi ≤ hi := by
  unfold clampQ
  split_ifs <;> linarith

theorem step_position_eq (p : LiftPlant) (dt : ℚ) :
    (p.step dt).position = clampQ (p.position + velAfterAccel p dt * dt) 0 1 := rfl

/-- C7: `LiftPlant::step` computes exactly the spec's update sequence; the
resulting position lies in `[0,1]`, and the bounded-acceleration update
moves the velocity by at most `accel * dt`. -/
theorem step_matches_spec (p : LiftPlant) (dt : ℚ) (h : 0 < dt) :
    p.step dt = stepSpecModel p dt
    ∧ 0 ≤ (p.step dt).position ∧ (p.step dt).position ≤ 1
    ∧ |velAfterAccel p dt - p.velocity| ≤ 3 * dt := by
  refine ⟨rfl, ?_, ?_, ?_⟩
  · rw [step_position_eq]
    exact le_clampQ _ 0 1 (by norm_num)
  · rw [step_position_eq]
    exact clampQ_le _ 0 1 (by norm_num)
  · have hd : -(3 * dt) ≤ 3 * dt := by linarith
    have hsub : velAfterAccel p dt - p.velocity =
        clampQ (p.targetVel - p.velocity) (-(3 * dt)) (3 * dt) := by
      unfold velAfterAccel
      ring
    rw [hsub, abs_le]
    exact ⟨le_clampQ _ _ _ hd, clampQ_le _ _ _ hd⟩

/-- Witness for C7 at the default plant and the scan period `dt = 0.02`. -/
theorem step_matches_spec_witness :
    LiftPlant.step {} scanDt = stepSpecModel {} scanDt
    ∧ 0 ≤ (LiftPlant.step {} scanDt).position ∧ (LiftPlant.step {} scanDt).position ≤ 1
    ∧ |velAfterAccel {} scanDt - ({} : LiftPlant).velocity| ≤ 3 * scanDt :=
  step_matches_spec {} scanDt (by norm_num [scanDt])

/-! ## Idempotence of a repeated scan (C9) -/

theorem clear_hasFault (fm : FaultManager) : fm.clear.hasFault = false := rfl

/-- C9: running `update` twice with the same input snapshot on a motionless
plant (`velocity = 0`, `targetVel = 0`) returns identical `Outputs`. -/
theorem update_outputs_idempotent (c : LiftController) (dt dt2 : ℚ) (i : Inputs)
    (p : LiftPlant) (_hv : p.velocity = 0) (_ht : p.targetVel = 0) :
    ((c.update dt i p).1.update dt2 i (c.update dt i p).2.1).2.2 = (c.update dt i p).2.2 := by
  set c1 := (c.update dt i p).1 with hc1
  set p1 := (c.update dt i p).2.1 with hp1
  have hv1 : p1.velocity = p.velocity := update_velocity_eq c dt i p
  have hF : c1.faults =
      (if resetGate i p.velocity then (step1Faults c.state c.faults i).clear
       else step1Faults c.state c.faults i) := update_faults_eq c dt i p
  have hS : c1.state = (if c1.faults.hasFault then LiftState.Faulted else cmdState i) :=
    update_state_eq c dt i p
  rw [update_out_eq c1 dt2 i p1, update_out_eq c dt i p]
  suffices hst : (c1.update dt2 i p1).1.state = (c.update dt i p).1.state by rw [hst]
  rw [update_state_eq c1 dt2 i p1, update_state_eq c dt i p,
    update_faults_eq c1 dt2 i p1, hv1, ← hc1]
  by_cases hg : resetGate i p.velocity = true
  · have hcf : c1.faults = (step1Faults c.state c.faults i).clear := by
      rw [hF, if_pos hg]
    rw [if_pos hg, hcf]
    simp [clear_hasFault]
  · have hcf : c1.faults = step1Faults c.state c.faults i := by
      rw [hF, if_neg hg]
    rw [if_neg hg, hcf]
    by_cases hf : (step1Faults c.state c.faults i).hasFault = true
    · rw [if_pos hf]
      have hf2 : (step1Faults c1.state (step1Faults c.state c.faults i) i).hasFault = true := by
        rw [hasFault_iff, ← faultPriority_pos_iff] at hf ⊢
        have hm := step1Faults_mono c1.state (step1Faults c.state c.faults i) i
        omega
      rw [if_pos hf2]
    · rw [if_neg hf]
      have hfn : (step1Faults c.state c.faults i).latched = FaultCode.None := by
        have hne : ¬((step1Faults c.state c.faults i).latched ≠ FaultCode.None) :=
          fun hne2 => hf ((hasFault_iff _).mpr hne2)
        exact not_not.mp hne
      obtain ⟨hfm0, hE, hL, hTB, -, -, hCU, hCD⟩ :=
        (step1Faults_eq_none_iff c.state c.faults i).mp hfn
      have hc1state : c1.state = cmdState i := by
        rw [hS, hcf, if_neg hf]
      have h2 : (step1Faults c1.state (step1Faults c.state c.faults i) i).latched
          = FaultCode.None := by
        rw [step1Faults_eq_none_iff]
        refine ⟨hfn, hE, hL, hTB, ?_, ?_, hCU, hCD⟩
        · rintro ⟨hlift, htop⟩
          rw [hc1state] at hlift
          rw [cmdState_lifting i hlift] at htop
          exact absurd htop (by decide)
        · rintro ⟨hlow, hbot⟩
          rw [hc1state] at hlow
          rw [cmdState_lowering i hlow] at hbot
          exact absurd hbot (by decide)
      have h2f : ¬((step1Faults c1.state (step1Faults c.state c.faults i) i).hasFault = true) :=
        fun hx => ((hasFault_iff _).mp hx) h2
      rw [if_neg h2f]

/-- Witness for C9 at a fresh controller, an up command and the motionless
default plant. -/
theorem update_outputs_idempotent_witness :
    ((LiftController.update {} scanDt iUp {}).1.update scanDt iUp
        (LiftController.update {} scanDt iUp {}).2.1).2.2
      = (LiftController.update {} scanDt iUp {}).2.2 :=
  update_outputs_idempotent {} scanDt scanDt iUp {} rfl rfl

/-! ## Scenario A (C6): a full travel under `cmdUp`, command released
before the top limit asserts, run at `dt = 0.02`. -/

unseal Rat.add Rat.sub Rat.mul Rat.inv in
set_option maxRecDepth 100000 in
set_option maxHeartbeats 4000000 in
/-- C6: starting from `position = 0` with no fault, 143 scans of `cmdUp`
followed by release produce the state sequence Holding → Lifting (143
scans) → Holding, the plant coasts to `position = 1` where the derived
top limit is asserted, and no fault — in particular no `LimitViolation` —
is ever latched on any scan. -/
theorem scenarioA_no_limit_fault :
    initialSystem.1.state = LiftState.Holding
    ∧ ((runTrace scenarioCmds initialSystem).map (fun s => s.1.state) =
        List.replicate 143 LiftState.Lifting ++ List.replicate 10 LiftState.Holding)
    ∧ ((runTrace scenarioCmds initialSystem).all
        (fun s => decide (s.1.faults.latched = FaultCode.None)) = true)
    ∧ ((runTrace scenarioCmds initialSystem).map (fun s => s.2.position)).getLast? = some 1
    ∧ ((runTrace scenarioCmds initialSystem).map
        (fun s => (deriveInputs false s.2).topLimit)).getLast? = some true :=
  ⟨rfl, by decide, by decide, by decide, by decide⟩

end Forklift
